import Mathlib

/-!
Shallow embedding of the console Bus Booking System (`src/BusBookingSystem.cpp`)
and proofs about its seat-reservation data model.

The C++ program keeps a global `std::vector<Bus> busList`; each `Bus` owns a
fixed 8×4 grid of `Seat`.  The interactive prompts are modelled by passing the
strings/integers the user would type as explicit arguments; `std::cout`
output is dropped and each operation returns the mutated registry together
with a result tag describing which message branch the source took.
-/

namespace BusBooking

/-- One seat (`struct Seat`, lines 45–53): the passenger name, which is the
literal `"Empty"` while the seat is vacant, and the fare.  `double fare` is
modelled as `ℚ`; the program only ever stores the literals `0.0` and `300.0`
and never does fare arithmetic, so the embedding is exact. -/
structure Seat where
  passengerName : String
  fare : ℚ
deriving DecidableEq

/-- The `Seat()` default constructor (line 52): name `"Empty"`, fare `0.0`. -/
def emptySeat : Seat := { passengerName := "Empty", fare := 0 }

/-- A bus (`class Bus`, lines 59–139).  The private member
`std::vector<std::vector<Seat>> seats` is always an 8-row, 4-column grid
(established by the constructor and never resized), so it is embedded as a
total function `Fin 8 → Fin 4 → Seat`. -/
structure Bus where
  busNumber : String
  driverName : String
  arrivalTime : String
  departureTime : String
  «from» : String
  «to» : String
  seats : Fin 8 → Fin 4 → Seat

/-- `Bus::Bus()` (lines 150–159): default-constructed `std::string`s are
empty, the grid starts from default seats and every fare is then set
to `300.0`. -/
def defaultBus : Bus :=
  { busNumber := "", driverName := "", arrivalTime := "", departureTime := "",
    «from» := "", «to» := "",
    seats := fun _ _ => { emptySeat with fare := 300 } }

/-- `Bus::install()` (lines 161–221).  The six prompts are taken as arguments
`i1 … i6` in source order (bus number, driver, arrival, departure, origin,
destination).  Each field is assigned from its input and then checked; on
`"0"` or empty input the method clears exactly the fields the source clears
(all previously accepted ones) and returns early, so the fields read so far
but not cleared keep the value just assigned. -/
def install (b : Bus) (i1 i2 i3 i4 i5 i6 : String) : Bus :=
  if i1 = "0" ∨ i1 = "" then
    { b with busNumber := "" }
  else if i2 = "0" ∨ i2 = "" then
    { b with busNumber := "", driverName := i2 }
  else if i3 = "0" ∨ i3 = "" then
    { b with busNumber := "", driverName := "", arrivalTime := i3 }
  else if i4 = "0" ∨ i4 = "" then
    { b with busNumber := "", driverName := "", arrivalTime := "",
             departureTime := i4 }
  else if i5 = "0" ∨ i5 = "" then
    { b with busNumber := "", driverName := "", arrivalTime := "",
             departureTime := "", «from» := i5 }
  else if i6 = "0" ∨ i6 = "" then
    { b with busNumber := "", driverName := "", arrivalTime := "",
             departureTime := "", «from» := "", «to» := i6 }
  else
    { b with busNumber := i1, driverName := i2, arrivalTime := i3,
             departureTime := i4, «from» := i5, «to» := i6 }

/-- `main`, menu case 1 (lines 519–527): a default `Bus` is constructed,
`install` runs on it, and it is appended to the registry only when its
`busNumber` is non-empty. -/
def installNewBus (reg : List Bus) (i1 i2 i3 i4 i5 i6 : String) : List Bus :=
  let nb := install defaultBus i1 i2 i3 i4 i5 i6
  if nb.busNumber = "" then reg else reg ++ [nb]

/-- The message branches `Bus::allotment()` (lines 223–292) can take. -/
inductive ReserveResult where
  | cancelled
  | notFound
  | invalidSeat
  | alreadyReserved (occupant : String)
  | success (fare : ℚ)
deriving DecidableEq

/-- The message branches `Bus::cancelSeat()` (lines 294–357) can take. -/
inductive ReleaseResult where
  | cancelled
  | notFound
  | invalidSeat
  | alreadyEmpty
  | aborted
  | success
deriving DecidableEq

/-- The seat-number-to-grid mapping used by both `allotment` (lines 266–267)
and `cancelSeat` (lines 334–335): `row = (n-1)/4`, `col = (n-1)%4`. -/
def seatRC (n : Nat) : Nat × Nat := ((n - 1) / 4, (n - 1) % 4)

/-- The seat assignment statement `it->seats[row][col].passengerName = name`
(lines 286 and 355): overwrite one seat's passenger name, leaving its fare
and every other seat alone. -/
def Bus.writeSeat (b : Bus) (r : Fin 8) (c : Fin 4) (name : String) : Bus :=
  let row2 := Function.update (b.seats r) c { b.seats r c with passengerName := name }
  { b with seats := Function.update b.seats r row2 }

/-- The per-bus part of `Bus::allotment()` (lines 242–292), run on the bus the
linear search found: seat-number `0` cancels, out-of-range is rejected, an
occupied seat reports its occupant, a sentinel passenger name cancels, and
otherwise the seat's `passengerName` is overwritten and the seat's fare is
reported. -/
def reserveInBus (b : Bus) (n : Int) (passenger : String) : Bus × ReserveResult :=
  if n = 0 then (b, .cancelled)
  else if h : n < 1 ∨ 32 < n then (b, .invalidSeat)
  else
    let r : Fin 8 := ⟨(seatRC n.toNat).1, by simp only [seatRC]; omega⟩
    let c : Fin 4 := ⟨(seatRC n.toNat).2, by simp only [seatRC]; omega⟩
    let s := b.seats r c
    if s.passengerName ≠ "Empty" then (b, .alreadyReserved s.passengerName)
    else if passenger = "0" ∨ passenger = "" then (b, .cancelled)
    else (b.writeSeat r c passenger, .success s.fare)

/-- The `std::find_if` linear scan of `busList` in `allotment` (lines
234–240) combined with the in-place mutation through the returned iterator:
the first bus whose number matches is replaced by the result of
`reserveInBus`; if none matches the registry is unchanged and the
"Bus not found" branch is taken. -/
def reserveScan (number : String) (n : Int) (passenger : String) :
    List Bus → List Bus × ReserveResult
  | [] => ([], .notFound)
  | b :: rest =>
    if b.busNumber = number then
      ((reserveInBus b n passenger).1 :: rest, (reserveInBus b n passenger).2)
    else
      (b :: (reserveScan number n passenger rest).1,
       (reserveScan number n passenger rest).2)

/-- `Bus::allotment()` (lines 223–292) over the whole registry: a sentinel
bus number cancels before the scan. -/
def allotment (reg : List Bus) (number : String) (n : Int) (passenger : String) :
    List Bus × ReserveResult :=
  if number = "0" ∨ number = "" then (reg, .cancelled)
  else reserveScan number n passenger reg

/-- The per-bus part of `Bus::cancelSeat()` (lines 313–357): seat-number `0`
cancels, out-of-range is rejected, a vacant seat reports "already empty", a
non-affirmative confirmation (`tolower(confirm) != 'y'`) aborts, and
otherwise the seat's `passengerName` is reset to `"Empty"`. -/
def releaseInBus (b : Bus) (n : Int) (confirm : Char) : Bus × ReleaseResult :=
  if n = 0 then (b, .cancelled)
  else if h : n < 1 ∨ 32 < n then (b, .invalidSeat)
  else
    let r : Fin 8 := ⟨(seatRC n.toNat).1, by simp only [seatRC]; omega⟩
    let c : Fin 4 := ⟨(seatRC n.toNat).2, by simp only [seatRC]; omega⟩
    let s := b.seats r c
    if s.passengerName = "Empty" then (b, .alreadyEmpty)
    else if confirm.toLower ≠ 'y' then (b, .aborted)
    else (b.writeSeat r c "Empty", .success)

/-- The `std::find_if` scan of `cancelSeat` (lines 305–311) with the mutation
through the iterator, analogous to `reserveScan`. -/
def releaseScan (number : String) (n : Int) (confirm : Char) :
    List Bus → List Bus × ReleaseResult
  | [] => ([], .notFound)
  | b :: rest =>
    if b.busNumber = number then
      ((releaseInBus b n confirm).1 :: rest, (releaseInBus b n confirm).2)
    else
      (b :: (releaseScan number n confirm rest).1,
       (releaseScan number n confirm rest).2)

/-- `Bus::cancelSeat()` (lines 294–357) over the whole registry. -/
def cancelSeat (reg : List Bus) (number : String) (n : Int) (confirm : Char) :
    List Bus × ReleaseResult :=
  if number = "0" ∨ number = "" then (reg, .cancelled)
  else releaseScan number n confirm reg

/-- `Bus::matchesRoute` (lines 399–401): exact equality on both fields. -/
def Bus.matchesRoute (b : Bus) (origin dest : String) : Bool :=
  b.«from» == origin && b.«to» == dest

/-- The `std::find_if` lookup by bus number used by `allotment`, `cancelSeat`
and menu case 3 (lines 234, 305, 550): first match in insertion order. -/
def findBus (reg : List Bus) (number : String) : Option Bus :=
  reg.find? fun b => b.busNumber == number

/-- The observable outcomes of `searchBusesByRoute` (lines 442–480). -/
inductive SearchOutcome where
  | noBuses
  | cancelled
  | noMatches
  | found (buses : List Bus)

/-- `searchBusesByRoute` (lines 442–480): empty registry reports "No buses
available"; a sentinel origin or destination cancels; otherwise the buses
matching the route are printed in registry order, or "No matching buses" if
none does. -/
def searchBusesByRoute (reg : List Bus) (origin dest : String) : SearchOutcome :=
  if reg.isEmpty then .noBuses
  else if origin = "0" ∨ origin = "" then .cancelled
  else if dest = "0" ∨ dest = "" then .cancelled
  else
    let ms := reg.filter fun b => b.matchesRoute origin dest
    if ms.isEmpty then .noMatches else .found ms

/-- The sequence of buses a `SearchOutcome` actually renders (the `found`
list; every other branch prints no bus). -/
def renderedBuses : SearchOutcome → List Bus
  | .found ms => ms
  | _ => []

/-- The seat positions enumerated by the nested loops of `Bus::show()`
(lines 373–387), in seat-number order 1..32. -/
def allSeatPositions : List (Fin 8 × Fin 4) :=
  (List.finRange 8).flatMap fun r => (List.finRange 4).map fun c => (r, c)

/-- The "Total empty seats" counter of `Bus::show()` (lines 370–388). -/
def Bus.vacantCount (b : Bus) : Nat :=
  (allSeatPositions.filter fun rc => (b.seats rc.1 rc.2).passengerName == "Empty").length

/-- Registries whose buses all carry usable identifiers: non-empty and not
the cancellation token `"0"`.  Every registry state the program can reach has
this property (`reachable_validRegistry`), because `main` appends only buses
whose `install` accepted a non-sentinel bus number. -/
def ValidRegistry (reg : List Bus) : Prop :=
  ∀ b ∈ reg, b.busNumber ≠ "" ∧ b.busNumber ≠ "0"

/-- Registry states reachable from the initial empty `busList` by the three
mutating menu operations (install / reserve / cancel). -/
inductive Reachable : List Bus → Prop where
  | nil : Reachable []
  | install (reg : List Bus) (i1 i2 i3 i4 i5 i6 : String) :
      Reachable reg → Reachable (installNewBus reg i1 i2 i3 i4 i5 i6)
  | reserve (reg : List Bus) (number : String) (n : Int) (passenger : String) :
      Reachable reg → Reachable (allotment reg number n passenger).1
  | release (reg : List Bus) (number : String) (n : Int) (confirm : Char) :
      Reachable reg → Reachable (cancelSeat reg number n confirm).1

/-- The grid coordinates of seat number `n ∈ [1,32]`, as computed by the
source, bundled as `Fin` indices. -/
def seatFin (n : Int) (h1 : 1 ≤ n) (h2 : n ≤ 32) : Fin 8 × Fin 4 :=
  (⟨(seatRC n.toNat).1, by simp only [seatRC]; omega⟩,
   ⟨(seatRC n.toNat).2, by simp only [seatRC]; omega⟩)

/-- The seat-number-to-coordinates map restricted to the 32 valid seat
numbers (seat number `i+1` for `i : Fin 32`). -/
def seatPos (i : Fin 32) : Fin 8 × Fin 4 :=
  (⟨(seatRC (i.val + 1)).1, by have := i.isLt; simp only [seatRC]; omega⟩,
   ⟨(seatRC (i.val + 1)).2, by have := i.isLt; simp only [seatRC]; omega⟩)

/-- A concrete bus used to instantiate the theorems below: registered data
with all 32 seats vacant at the default fare. -/
def demoBus : Bus :=
  { busNumber := "B1", driverName := "Ravi", arrivalTime := "09:00",
    departureTime := "10:00", «from» := "Delhi", «to» := "Agra",
    seats := fun _ _ => { passengerName := "Empty", fare := 300 } }

/-- A one-bus registry produced by the registration flow itself. -/
def demoReg : List Bus := installNewBus [] "B1" "Ravi" "09:00" "10:00" "Delhi" "Agra"

/-- Registering the identifier `"B1"` a second time on top of `demoReg`:
the program performs no duplicate check. -/
def dupReg : List Bus := installNewBus demoReg "B1" "Sita" "11:00" "12:00" "Pune" "Goa"

/-- A bus whose origin field is the literal `"0"`: a value the route search
can never return because its cancellation check fires first. -/
def busZero : Bus := { demoBus with busNumber := "B9", «from» := "0" }

/-- Seat-to-coordinate bound used throughout: for seat numbers in `[1,32]`
the computed row is `< 8` and the column `< 4`. -/
theorem seatRC_lt (n : Nat) (h1 : 1 ≤ n) (h2 : n ≤ 32) :
    (seatRC n).1 < 8 ∧ (seatRC n).2 < 4 := by
  simp only [seatRC]
  omega

/-! ### Basic facts about `Bus.writeSeat` -/

theorem writeSeat_seats_same (b : Bus) (r : Fin 8) (c : Fin 4) (name : String) :
    (b.writeSeat r c name).seats r c = { b.seats r c with passengerName := name } := by
  simp [Bus.writeSeat]

theorem writeSeat_seats_other (b : Bus) (r : Fin 8) (c : Fin 4) (name : String)
    (r' : Fin 8) (c' : Fin 4) (h : r' ≠ r ∨ c' ≠ c) :
    (b.writeSeat r c name).seats r' c' = b.seats r' c' := by
  rcases h with h | h
  · simp [Bus.writeSeat, Function.update_noteq h]
  · by_cases hr : r' = r
    · subst hr
      simp [Bus.writeSeat, Function.update_noteq h]
    · simp [Bus.writeSeat, Function.update_noteq hr]

theorem writeSeat_fare (b : Bus) (r : Fin 8) (c : Fin 4) (name : String)
    (r' : Fin 8) (c' : Fin 4) :
    ((b.writeSeat r c name).seats r' c').fare = (b.seats r' c').fare := by
  by_cases hr : r' = r
  · by_cases hc : c' = c
    · subst hr; subst hc; rw [writeSeat_seats_same]
    · rw [writeSeat_seats_other _ _ _ _ _ _ (Or.inr hc)]
  · rw [writeSeat_seats_other _ _ _ _ _ _ (Or.inl hr)]

theorem writeSeat_busNumber (b : Bus) (r : Fin 8) (c : Fin 4) (name : String) :
    (b.writeSeat r c name).busNumber = b.busNumber := rfl

theorem writeSeat_self (b : Bus) (r : Fin 8) (c : Fin 4) (name : String)
    (h : (b.seats r c).passengerName = name) : b.writeSeat r c name = b := by
  have hseat : { b.seats r c with passengerName := name } = b.seats r c := by
    cases hs : b.seats r c
    simp_all
  simp [Bus.writeSeat, hseat, Function.update_eq_self]

theorem writeSeat_writeSeat (b : Bus) (r : Fin 8) (c : Fin 4) (n1 n2 : String) :
    (b.writeSeat r c n1).writeSeat r c n2 = b.writeSeat r c n2 := by
  have hsame := writeSeat_seats_same b r c n1
  simp only [Bus.writeSeat, hsame]
  simp [Function.update_idem]

/-! ### Branch lemmas for `reserveInBus` and `releaseInBus` -/

theorem reserveInBus_zero (b : Bus) (p : String) :
    reserveInBus b 0 p = (b, ReserveResult.cancelled) := by
  unfold reserveInBus
  rw [if_pos rfl]

theorem reserveInBus_invalid (b : Bus) (n : Int) (p : String)
    (hn0 : n ≠ 0) (hout : n < 1 ∨ 32 < n) :
    reserveInBus b n p = (b, ReserveResult.invalidSeat) := by
  unfold reserveInBus
  rw [if_neg hn0, dif_pos hout]

theorem reserveInBus_occupied (b : Bus) (n : Int) (p : String)
    (h1 : 1 ≤ n) (h2 : n ≤ 32)
    (hocc : (b.seats (seatFin n h1 h2).1 (seatFin n h1 h2).2).passengerName ≠ "Empty") :
    reserveInBus b n p =
      (b, ReserveResult.alreadyReserved
            (b.seats (seatFin n h1 h2).1 (seatFin n h1 h2).2).passengerName) := by
  unfold reserveInBus
  rw [if_neg (by omega), dif_neg (by omega)]
  exact if_pos hocc

theorem reserveInBus_sentinel (b : Bus) (n : Int) (p : String)
    (h1 : 1 ≤ n) (h2 : n ≤ 32)
    (hvac : (b.seats (seatFin n h1 h2).1 (seatFin n h1 h2).2).passengerName = "Empty")
    (hp : p = "0" ∨ p = "") :
    reserveInBus b n p = (b, ReserveResult.cancelled) := by
  unfold reserveInBus
  rw [if_neg (by omega), dif_neg (by omega)]
  exact (if_neg (not_not_intro hvac)).trans (if_pos hp)

theorem reserveInBus_success (b : Bus) (n : Int) (p : String)
    (h1 : 1 ≤ n) (h2 : n ≤ 32)
    (hvac : (b.seats (seatFin n h1 h2).1 (seatFin n h1 h2).2).passengerName = "Empty")
    (hp0 : p ≠ "0") (hpe : p ≠ "") :
    reserveInBus b n p =
      (b.writeSeat (seatFin n h1 h2).1 (seatFin n h1 h2).2 p,
       ReserveResult.success (b.seats (seatFin n h1 h2).1 (seatFin n h1 h2).2).fare) := by
  unfold reserveInBus
  rw [if_neg (by omega), dif_neg (by omega)]
  exact (if_neg (not_not_intro hvac)).trans (if_neg (by tauto))

theorem releaseInBus_zero (b : Bus) (confirm : Char) :
    releaseInBus b 0 confirm = (b, ReleaseResult.cancelled) := by
  unfold releaseInBus
  rw [if_pos rfl]

theorem releaseInBus_invalid (b : Bus) (n : Int) (confirm : Char)
    (hn0 : n ≠ 0) (hout : n < 1 ∨ 32 < n) :
    releaseInBus b n confirm = (b, ReleaseResult.invalidSeat) := by
  unfold releaseInBus
  rw [if_neg hn0, dif_pos hout]

theorem releaseInBus_empty (b : Bus) (n : Int) (confirm : Char)
    (h1 : 1 ≤ n) (h2 : n ≤ 32)
    (hvac : (b.seats (seatFin n h1 h2).1 (seatFin n h1 h2).2).passengerName = "Empty") :
    releaseInBus b n confirm = (b, ReleaseResult.alreadyEmpty) := by
  unfold releaseInBus
  rw [if_neg (by omega), dif_neg (by omega)]
  exact if_pos hvac

theorem releaseInBus_confirmed (b : Bus) (n : Int) (confirm : Char)
    (h1 : 1 ≤ n) (h2 : n ≤ 32)
    (hocc : (b.seats (seatFin n h1 h2).1 (seatFin n h1 h2).2).passengerName ≠ "Empty")
    (hconf : confirm.toLower = 'y') :
    releaseInBus b n confirm =
      (b.writeSeat (seatFin n h1 h2).1 (seatFin n h1 h2).2 "Empty",
       ReleaseResult.success) := by
  unfold releaseInBus
  rw [if_neg (by omega), dif_neg (by omega)]
  exact (if_neg hocc).trans (if_neg (not_not_intro hconf))

/-! ### The `std::find_if` scans: first match, everything else untouched -/

theorem reserveScan_append (pre : List Bus) (b : Bus) (post : List Bus)
    (number : String) (n : Int) (p : String)
    (hpre : ∀ b' ∈ pre, b'.busNumber ≠ number) (hb : b.busNumber = number) :
    reserveScan number n p (pre ++ b :: post) =
      (pre ++ (reserveInBus b n p).1 :: post, (reserveInBus b n p).2) := by
  induction pre with
  | nil =>
    simp only [List.nil_append, reserveScan]
    rw [if_pos hb]
  | cons a pre ih =>
    have ha : a.busNumber ≠ number := hpre a (List.mem_cons_self a pre)
    have ih' := ih fun b' hb' => hpre b' (List.mem_cons_of_mem a hb')
    simp only [List.cons_append, reserveScan, List.append_eq]
    rw [if_neg ha, ih']

theorem reserveScan_notFound (reg : List Bus) (number : String) (n : Int) (p : String)
    (hno : ∀ b ∈ reg, b.busNumber ≠ number) :
    reserveScan number n p reg = (reg, ReserveResult.notFound) := by
  induction reg with
  | nil => rfl
  | cons a reg ih =>
    have ha : a.busNumber ≠ number := hno a (List.mem_cons_self a reg)
    have ih' := ih fun b' hb' => hno b' (List.mem_cons_of_mem a hb')
    simp only [reserveScan]
    rw [if_neg ha, ih']

theorem releaseScan_append (pre : List Bus) (b : Bus) (post : List Bus)
    (number : String) (n : Int) (confirm : Char)
    (hpre : ∀ b' ∈ pre, b'.busNumber ≠ number) (hb : b.busNumber = number) :
    releaseScan number n confirm (pre ++ b :: post) =
      (pre ++ (releaseInBus b n confirm).1 :: post, (releaseInBus b n confirm).2) := by
  induction pre with
  | nil =>
    simp only [List.nil_append, releaseScan]
    rw [if_pos hb]
  | cons a pre ih =>
    have ha : a.busNumber ≠ number := hpre a (List.mem_cons_self a pre)
    have ih' := ih fun b' hb' => hpre b' (List.mem_cons_of_mem a hb')
    simp only [List.cons_append, releaseScan, List.append_eq]
    rw [if_neg ha, ih']

/-! ### What the mutating operations preserve -/

theorem reserveInBus_busNumber (b : Bus) (n : Int) (p : String) :
    (reserveInBus b n p).1.busNumber = b.busNumber := by
  unfold reserveInBus
  split
  · rfl
  split
  · rfl
  dsimp only
  split
  · rfl
  split
  · rfl
  · rfl

theorem reserveInBus_fares (b : Bus) (n : Int) (p : String) (r : Fin 8) (c : Fin 4) :
    ((reserveInBus b n p).1.seats r c).fare = (b.seats r c).fare := by
  unfold reserveInBus
  split
  · rfl
  split
  · rfl
  dsimp only
  split
  · rfl
  split
  · rfl
  · exact writeSeat_fare b _ _ p r c

theorem releaseInBus_busNumber (b : Bus) (n : Int) (confirm : Char) :
    (releaseInBus b n confirm).1.busNumber = b.busNumber := by
  unfold releaseInBus
  split
  · rfl
  split
  · rfl
  dsimp only
  split
  · rfl
  split
  · rfl
  · rfl

theorem releaseInBus_fares (b : Bus) (n : Int) (confirm : Char) (r : Fin 8) (c : Fin 4) :
    ((releaseInBus b n confirm).1.seats r c).fare = (b.seats r c).fare := by
  unfold releaseInBus
  split
  · rfl
  split
  · rfl
  dsimp only
  split
  · rfl
  split
  · rfl
  · exact writeSeat_fare b _ _ "Empty" r c

theorem mem_reserveScan (reg : List Bus) (number : String) (n : Int) (p : String)
    (b' : Bus) (hb' : b' ∈ (reserveScan number n p reg).1) :
    ∃ b ∈ reg, b'.busNumber = b.busNumber
      ∧ ∀ r c, (b'.seats r c).fare = (b.seats r c).fare := by
  induction reg with
  | nil => cases hb'
  | cons a reg ih =>
    by_cases ha : a.busNumber = number
    · rw [show reserveScan number n p (a :: reg)
            = ((reserveInBus a n p).1 :: reg, (reserveInBus a n p).2) from by
          simp only [reserveScan]; rw [if_pos ha]] at hb'
      rcases List.mem_cons.mp hb' with h | h
      · exact ⟨a, List.mem_cons_self a reg,
          h ▸ ⟨reserveInBus_busNumber a n p, fun r c => reserveInBus_fares a n p r c⟩⟩
      · exact ⟨b', List.mem_cons_of_mem a h, rfl, fun r c => rfl⟩
    · rw [show reserveScan number n p (a :: reg)
            = (a :: (reserveScan number n p reg).1, (reserveScan number n p reg).2) from by
          simp only [reserveScan]; rw [if_neg ha]] at hb'
      rcases List.mem_cons.mp hb' with h | h
      · exact ⟨a, List.mem_cons_self a reg, h ▸ ⟨rfl, fun r c => rfl⟩⟩
      · obtain ⟨b, hmem, hnum, hfare⟩ := ih h
        exact ⟨b, List.mem_cons_of_mem a hmem, hnum, hfare⟩

theorem mem_releaseScan (reg : List Bus) (number : String) (n : Int) (confirm : Char)
    (b' : Bus) (hb' : b' ∈ (releaseScan number n confirm reg).1) :
    ∃ b ∈ reg, b'.busNumber = b.busNumber
      ∧ ∀ r c, (b'.seats r c).fare = (b.seats r c).fare := by
  induction reg with
  | nil => cases hb'
  | cons a reg ih =>
    by_cases ha : a.busNumber = number
    · rw [show releaseScan number n confirm (a :: reg)
            = ((releaseInBus a n confirm).1 :: reg, (releaseInBus a n confirm).2) from by
          simp only [releaseScan]; rw [if_pos ha]] at hb'
      rcases List.mem_cons.mp hb' with h | h
      · exact ⟨a, List.mem_cons_self a reg,
          h ▸ ⟨releaseInBus_busNumber a n confirm,
               fun r c => releaseInBus_fares a n confirm r c⟩⟩
      · exact ⟨b', List.mem_cons_of_mem a h, rfl, fun r c => rfl⟩
    · rw [show releaseScan number n confirm (a :: reg)
            = (a :: (releaseScan number n confirm reg).1,
               (releaseScan number n confirm reg).2) from by
          simp only [releaseScan]; rw [if_neg ha]] at hb'
      rcases List.mem_cons.mp hb' with h | h
      · exact ⟨a, List.mem_cons_self a reg, h ▸ ⟨rfl, fun r c => rfl⟩⟩
      · obtain ⟨b, hmem, hnum, hfare⟩ := ih h
        exact ⟨b, List.mem_cons_of_mem a hmem, hnum, hfare⟩

/-! ### Facts about `install` -/

theorem install_seats (b : Bus) (i1 i2 i3 i4 i5 i6 : String) :
    (install b i1 i2 i3 i4 i5 i6).seats = b.seats := by
  unfold install
  split_ifs <;> rfl

theorem install_cancel_busNumber (b : Bus) (i1 i2 i3 i4 i5 i6 : String)
    (h : i1 = "0" ∨ i1 = "" ∨ i2 = "0" ∨ i2 = "" ∨ i3 = "0" ∨ i3 = ""
       ∨ i4 = "0" ∨ i4 = "" ∨ i5 = "0" ∨ i5 = "" ∨ i6 = "0" ∨ i6 = "") :
    (install b i1 i2 i3 i4 i5 i6).busNumber = "" := by
  unfold install
  split_ifs <;> first | rfl | tauto

theorem install_accepted (b : Bus) (i1 i2 i3 i4 i5 i6 : String)
    (h : (install b i1 i2 i3 i4 i5 i6).busNumber ≠ "") :
    (install b i1 i2 i3 i4 i5 i6).busNumber = i1 ∧ i1 ≠ "0" ∧ i1 ≠ "" := by
  by_cases hs : i1 = "0" ∨ i1 = "" ∨ i2 = "0" ∨ i2 = "" ∨ i3 = "0" ∨ i3 = ""
       ∨ i4 = "0" ∨ i4 = "" ∨ i5 = "0" ∨ i5 = "" ∨ i6 = "0" ∨ i6 = ""
  · exact absurd (install_cancel_busNumber b i1 i2 i3 i4 i5 i6 hs) h
  · push_neg at hs
    refine ⟨?_, hs.1, hs.2.1⟩
    unfold install
    split_ifs <;> first | rfl | tauto

theorem mem_installNewBus (reg : List Bus) (i1 i2 i3 i4 i5 i6 : String) (b' : Bus)
    (hb' : b' ∈ installNewBus reg i1 i2 i3 i4 i5 i6) :
    b' ∈ reg ∨ b' = install defaultBus i1 i2 i3 i4 i5 i6 := by
  unfold installNewBus at hb'
  by_cases h : (install defaultBus i1 i2 i3 i4 i5 i6).busNumber = ""
  · rw [if_pos h] at hb'
    exact Or.inl hb'
  · rw [if_neg h] at hb'
    rcases List.mem_append.mp hb' with hm | hm
    · exact Or.inl hm
    · exact Or.inr (List.mem_singleton.mp hm)

/-! ### Invariants of reachable registry states -/

theorem reachable_validRegistry (reg : List Bus) (h : Reachable reg) :
    ValidRegistry reg := by
  induction h with
  | nil => intro b hb; cases hb
  | install reg i1 i2 i3 i4 i5 i6 _ ih =>
    intro b' hb'
    by_cases hz : (install defaultBus i1 i2 i3 i4 i5 i6).busNumber = ""
    · have hkeep : installNewBus reg i1 i2 i3 i4 i5 i6 = reg := by
        unfold installNewBus
        rw [if_pos hz]
      rw [hkeep] at hb'
      exact ih b' hb'
    · have happ : installNewBus reg i1 i2 i3 i4 i5 i6
          = reg ++ [install defaultBus i1 i2 i3 i4 i5 i6] := by
        unfold installNewBus
        rw [if_neg hz]
      rw [happ] at hb'
      rcases List.mem_append.mp hb' with hm | hm
      · exact ih b' hm
      · obtain rfl := List.mem_singleton.mp hm
        obtain ⟨heq, h0, he⟩ := install_accepted defaultBus i1 i2 i3 i4 i5 i6 hz
        exact ⟨hz, by rw [heq]; exact h0⟩
  | reserve reg number n passenger _ ih =>
    intro b' hb'
    unfold allotment at hb'
    by_cases hs : number = "0" ∨ number = ""
    · rw [if_pos hs] at hb'
      exact ih b' hb'
    · rw [if_neg hs] at hb'
      obtain ⟨b, hmem, hnum, -⟩ := mem_reserveScan reg number n passenger b' hb'
      rw [show b'.busNumber = b.busNumber from hnum]
      exact ih b hmem
  | release reg number n confirm _ ih =>
    intro b' hb'
    unfold cancelSeat at hb'
    by_cases hs : number = "0" ∨ number = ""
    · rw [if_pos hs] at hb'
      exact ih b' hb'
    · rw [if_neg hs] at hb'
      obtain ⟨b, hmem, hnum, -⟩ := mem_releaseScan reg number n confirm b' hb'
      rw [show b'.busNumber = b.busNumber from hnum]
      exact ih b hmem

theorem reachable_fares (reg : List Bus) (h : Reachable reg) :
    ∀ b ∈ reg, ∀ (r : Fin 8) (c : Fin 4), (b.seats r c).fare = 300 := by
  induction h with
  | nil => intro b hb; cases hb
  | install reg i1 i2 i3 i4 i5 i6 _ ih =>
    intro b' hb' r c
    rcases mem_installNewBus reg i1 i2 i3 i4 i5 i6 b' hb' with hm | rfl
    · exact ih b' hm r c
    · rw [install_seats]
      rfl
  | reserve reg number n passenger _ ih =>
    intro b' hb' r c
    unfold allotment at hb'
    by_cases hs : number = "0" ∨ number = ""
    · rw [if_pos hs] at hb'
      exact ih b' hb' r c
    · rw [if_neg hs] at hb'
      obtain ⟨b, hmem, -, hfare⟩ := mem_reserveScan reg number n passenger b' hb'
      rw [hfare r c]
      exact ih b hmem r c
  | release reg number n confirm _ ih =>
    intro b' hb' r c
    unfold cancelSeat at hb'
    by_cases hs : number = "0" ∨ number = ""
    · rw [if_pos hs] at hb'
      exact ih b' hb' r c
    · rw [if_neg hs] at hb'
      obtain ⟨b, hmem, -, hfare⟩ := mem_releaseScan reg number n confirm b' hb'
      rw [hfare r c]
      exact ih b hmem r c

theorem mem_allSeatPositions (rc : Fin 8 × Fin 4) : rc ∈ allSeatPositions := by
  revert rc
  decide

/-! ### Claim theorems -/

/-- C5: for every sequence of registration inputs in which any one required
field (identifier, driver, arrival time, departure time, origin,
destination) is empty or equals the cancellation token `"0"`, registration
aborts and no vehicle is appended: the registry is unchanged. -/
theorem registration_cancel_preserves_registry (reg : List Bus)
    (i1 i2 i3 i4 i5 i6 : String)
    (h : i1 = "0" ∨ i1 = "" ∨ i2 = "0" ∨ i2 = "" ∨ i3 = "0" ∨ i3 = ""
       ∨ i4 = "0" ∨ i4 = "" ∨ i5 = "0" ∨ i5 = "" ∨ i6 = "0" ∨ i6 = "") :
    installNewBus reg i1 i2 i3 i4 i5 i6 = reg := by
  unfold installNewBus
  rw [if_pos (install_cancel_busNumber defaultBus i1 i2 i3 i4 i5 i6 h)]

/-- Witness for C5: cancelling at the departure-time prompt of a registration
on a one-bus registry leaves the registry as it was. -/
theorem registration_cancel_preserves_registry_witness :
    installNewBus [demoBus] "B2" "Sita" "11:00" "" "Pune" "Goa" = [demoBus] :=
  registration_cancel_preserves_registry [demoBus] "B2" "Sita" "11:00" "" "Pune" "Goa"
    (by decide)

/-- C7: seat numbers 1..32 map bijectively onto the 8×4 grid through
`row = (n-1)/4`, `col = (n-1)%4`, and for every seat number in `[1,32]` the
computed row and column are within the grid bounds, so the guarded grid
accesses of reserve and release stay in bounds. -/
theorem seat_number_grid_bijection :
    Function.Bijective seatPos
    ∧ ∀ i : Fin 32, (seatRC (i.val + 1)).1 < 8 ∧ (seatRC (i.val + 1)).2 < 4 := by
  constructor
  · decide
  · intro i
    exact seatRC_lt (i.val + 1) (by omega) (by omega)

/-- C8: a newly constructed vehicle has all 32 seats (the grid enumeration
has length 32) vacant at fare 300, and in every reachable registry state
every seat of every vehicle still has fare 300: fares are never mutated
after construction. -/
theorem fares_never_mutated :
    (∀ (r : Fin 8) (c : Fin 4),
        defaultBus.seats r c = { passengerName := "Empty", fare := 300 })
    ∧ allSeatPositions.length = 32
    ∧ ∀ reg, Reachable reg → ∀ b ∈ reg,
        ∀ (r : Fin 8) (c : Fin 4), (b.seats r c).fare = 300 := by
  refine ⟨fun r c => rfl, by decide, ?_⟩
  exact fun reg h => reachable_fares reg h

/-- Witness for C8: in the registry reached by one successful registration,
the registered bus's first seat carries fare 300. -/
theorem fares_never_mutated_witness :
    ((install defaultBus "B1" "Ravi" "09:00" "10:00" "Delhi" "Agra").seats 0 0).fare
      = 300 :=
  fares_never_mutated.2.2 demoReg
    (Reachable.install [] "B1" "Ravi" "09:00" "10:00" "Delhi" "Agra" Reachable.nil)
    (install defaultBus "B1" "Ravi" "09:00" "10:00" "Delhi" "Agra")
    (by rw [show demoReg
          = [install defaultBus "B1" "Ravi" "09:00" "10:00" "Delhi" "Agra"] from rfl]
        exact List.mem_singleton_self _)
    0 0

/-- Counterexample to C9 as stated: the registry obtained by registering the
identifier `"B1"` twice is reachable, yet its identifiers are not pairwise
distinct — registration performs no duplicate check. -/
theorem duplicate_identifiers_reachable :
    Reachable dupReg ∧ ¬ (dupReg.map Bus.busNumber).Nodup := by
  constructor
  · exact Reachable.install demoReg "B1" "Sita" "11:00" "12:00" "Pune" "Goa"
      (Reachable.install [] "B1" "Ravi" "09:00" "10:00" "Delhi" "Agra" Reachable.nil)
  · decide

/-- C9 amended: identifiers in reachable registry states need not be
pairwise distinct (duplicates can be registered); lookup by identifier
returns the first match in insertion order, and fails only when no vehicle
matches. -/
theorem lookup_first_match :
    (∀ (pre post : List Bus) (b : Bus) (number : String),
        (∀ b' ∈ pre, b'.busNumber ≠ number) → b.busNumber = number →
        findBus (pre ++ b :: post) number = some b)
    ∧ ∀ (reg : List Bus) (number : String),
        (∀ b ∈ reg, b.busNumber ≠ number) → findBus reg number = none := by
  constructor
  · intro pre post b number hpre hb
    induction pre with
    | nil =>
      simp only [List.nil_append, findBus, List.find?]
      rw [show (b.busNumber == number) = true from by simp [hb]]
    | cons a pre ih =>
      have ha : a.busNumber ≠ number := hpre a (List.mem_cons_self a pre)
      have ih' := ih fun b' hb' => hpre b' (List.mem_cons_of_mem a hb')
      simp only [List.cons_append, findBus, List.find?]
      rw [show (a.busNumber == number) = false from by simp [ha]]
      exact ih'
  · intro reg number hno
    induction reg with
    | nil => rfl
    | cons a reg ih =>
      have ha : a.busNumber ≠ number := hno a (List.mem_cons_self a reg)
      have ih' := ih fun b' hb' => hno b' (List.mem_cons_of_mem a hb')
      simp only [findBus, List.find?]
      rw [show (a.busNumber == number) = false from by simp [ha]]
      exact ih'

/-- Witness for C9 (amended): looking up `"B1"` in a singleton registry
returns that bus. -/
theorem lookup_first_match_witness : findBus [demoBus] "B1" = some demoBus :=
  lookup_first_match.1 [] [] demoBus "B1" (by simp) rfl

/-- Counterexample to C6 as stated: a registry holding one bus whose origin
field is the literal `"0"` (destination `"Agra"`) does contain a vehicle
matching the route `"0" → "Agra"`, yet `searchBusesByRoute` renders no
vehicle for that pair — its cancellation check fires on the origin input
before any filtering. -/
theorem search_sentinel_counterexample :
    busZero.«from» = "0" ∧ busZero.«to» = "Agra"
    ∧ renderedBuses (searchBusesByRoute [busZero] "0" "Agra") = []
    ∧ ([] : List Bus) ≠ [busZero] :=
  ⟨rfl, rfl, rfl, by simp⟩

/-- C6 amended: for every nonempty registry and every origin/destination
pair in which neither input is empty or the cancellation token `"0"`, the
vehicles rendered by `searchBusesByRoute` are exactly the subsequence of
registered vehicles whose origin and destination fields equal the given
ones under exact case-sensitive untrimmed string equality, in registration
order: the rendered list is a sublist of the registry, every rendered
vehicle matches, and every sublist of matching vehicles embeds into it. -/
theorem search_by_route_exact (reg : List Bus) (o d : String)
    (hreg : reg ≠ []) (ho0 : o ≠ "0") (hoe : o ≠ "") (hd0 : d ≠ "0") (hde : d ≠ "") :
    (renderedBuses (searchBusesByRoute reg o d)).Sublist reg
    ∧ (∀ b ∈ renderedBuses (searchBusesByRoute reg o d), b.«from» = o ∧ b.«to» = d)
    ∧ ∀ sub : List Bus, sub.Sublist reg →
        (∀ b ∈ sub, b.«from» = o ∧ b.«to» = d) →
        sub.Sublist (renderedBuses (searchBusesByRoute reg o d)) := by
  have hrend : renderedBuses (searchBusesByRoute reg o d)
      = reg.filter fun b => b.matchesRoute o d := by
    unfold searchBusesByRoute
    rw [if_neg (by simpa using hreg), if_neg (by tauto), if_neg (by tauto)]
    dsimp only
    by_cases hm : (reg.filter fun b => b.matchesRoute o d).isEmpty
    · rw [if_pos hm]
      rw [show (reg.filter fun b => b.matchesRoute o d) = []
            from List.isEmpty_iff.mp hm]
      rfl
    · rw [if_neg hm]
      rfl
  rw [hrend]
  refine ⟨List.filter_sublist reg, ?_, ?_⟩
  · intro b hb
    have hmatch := (List.mem_filter.mp hb).2
    simpa [Bus.matchesRoute] using hmatch
  · intro sub hsub hall
    have hself : sub.filter (fun b => b.matchesRoute o d) = sub :=
      List.filter_eq_self.mpr fun b hb => by
        simp [Bus.matchesRoute, (hall b hb).1, (hall b hb).2]
    rw [← hself]
    exact hsub.filter _

/-- Witness for C6 (amended): on the singleton registry with route
Delhi → Agra, the rendered result of searching that route is a sublist of
the registry. -/
theorem search_by_route_exact_witness :
    (renderedBuses (searchBusesByRoute [demoBus] "Delhi" "Agra")).Sublist [demoBus] :=
  (search_by_route_exact [demoBus] "Delhi" "Agra" (by simp) (by decide) (by decide)
    (by decide) (by decide)).1

/-- C1: in a registry (all of whose identifiers are usable, as every
reachable registry's are) containing a vehicle with the given identifier —
the first match being `b` — for every seat number `n ∈ [1,32]` whose seat
is vacant and every passenger name that is non-empty and not `"0"`,
reserve sets exactly that seat's occupant to the passenger name, returns
the fare in effect for that seat, and changes no other seat, no other
field of that vehicle, and no other vehicle of the registry. -/
theorem reserve_vacant_seat (pre post : List Bus) (b : Bus)
    (number passenger : String) (n : Int) (h1 : 1 ≤ n) (h2 : n ≤ 32)
    (hvr : ValidRegistry (pre ++ b :: post))
    (hpre : ∀ b' ∈ pre, b'.busNumber ≠ number) (hb : b.busNumber = number)
    (hvac : (b.seats (seatFin n h1 h2).1 (seatFin n h1 h2).2).passengerName = "Empty")
    (hp0 : passenger ≠ "0") (hpe : passenger ≠ "") :
    ∃ b2 : Bus,
      allotment (pre ++ b :: post) number n passenger
          = (pre ++ b2 :: post,
             ReserveResult.success
               (b.seats (seatFin n h1 h2).1 (seatFin n h1 h2).2).fare)
      ∧ (b2.seats (seatFin n h1 h2).1 (seatFin n h1 h2).2).passengerName = passenger
      ∧ (b2.seats (seatFin n h1 h2).1 (seatFin n h1 h2).2).fare
          = (b.seats (seatFin n h1 h2).1 (seatFin n h1 h2).2).fare
      ∧ (∀ (r : Fin 8) (c : Fin 4),
           r ≠ (seatFin n h1 h2).1 ∨ c ≠ (seatFin n h1 h2).2 →
           b2.seats r c = b.seats r c)
      ∧ b2.busNumber = b.busNumber ∧ b2.driverName = b.driverName
      ∧ b2.arrivalTime = b.arrivalTime ∧ b2.departureTime = b.departureTime
      ∧ b2.«from» = b.«from» ∧ b2.«to» = b.«to» := by
  have hnum : ¬(number = "0" ∨ number = "") := by
    have hv := hvr b (by simp)
    rw [hb] at hv
    tauto
  refine ⟨b.writeSeat (seatFin n h1 h2).1 (seatFin n h1 h2).2 passenger,
    ?_, ?_, ?_, ?_, rfl, rfl, rfl, rfl, rfl, rfl⟩
  · unfold allotment
    rw [if_neg hnum, reserveScan_append pre b post number n passenger hpre hb,
        reserveInBus_success b n passenger h1 h2 hvac hp0 hpe]
  · rw [writeSeat_seats_same]
  · exact writeSeat_fare b _ _ passenger _ _
  · intro r c h
    exact writeSeat_seats_other b _ _ passenger r c
      (by rcases h with h | h
          · exact Or.inl h
          · exact Or.inr h)

/-- Witness for C1: reserving vacant seat 5 of the demo bus for `"Asha"`
succeeds with fare 300. -/
theorem reserve_vacant_seat_witness :
    (allotment [demoBus] "B1" 5 "Asha").2 = ReserveResult.success 300 := by
  obtain ⟨b2, heq, -⟩ :=
    reserve_vacant_seat [] [] demoBus "B1" "Asha" 5 (by decide) (by decide)
      (by intro b hb
          rw [List.nil_append, List.mem_singleton] at hb
          subst hb
          exact ⟨by decide, by decide⟩)
      (by simp) rfl rfl (by decide) (by decide)
  rw [List.nil_append] at heq
  rw [heq]
  rfl

/-- C2: in a registry with usable identifiers, for an existing vehicle
(first match `b`) and a seat number in `[1,32]` whose seat is already
occupied, reserve reports `alreadyReserved` with the current occupant's
name and the registry — every seat, fare, vehicle — is left exactly as it
was. -/
theorem reserve_occupied_seat (pre post : List Bus) (b : Bus)
    (number passenger : String) (n : Int) (h1 : 1 ≤ n) (h2 : n ≤ 32)
    (hvr : ValidRegistry (pre ++ b :: post))
    (hpre : ∀ b' ∈ pre, b'.busNumber ≠ number) (hb : b.busNumber = number)
    (hocc : (b.seats (seatFin n h1 h2).1 (seatFin n h1 h2).2).passengerName
              ≠ "Empty") :
    allotment (pre ++ b :: post) number n passenger
      = (pre ++ b :: post,
         ReserveResult.alreadyReserved
           (b.seats (seatFin n h1 h2).1 (seatFin n h1 h2).2).passengerName) := by
  have hnum : ¬(number = "0" ∨ number = "") := by
    have hv := hvr b (by simp)
    rw [hb] at hv
    tauto
  unfold allotment
  rw [if_neg hnum, reserveScan_append pre b post number n passenger hpre hb,
      reserveInBus_occupied b n passenger h1 h2 hocc]

/-- Witness for C2: after `"Asha"` takes seat 5, reserving seat 5 again
reports her as the occupant and leaves the registry unchanged. -/
theorem reserve_occupied_seat_witness :
    allotment [demoBus.writeSeat 1 0 "Asha"] "B1" 5 "Meena"
      = ([demoBus.writeSeat 1 0 "Asha"],
         ReserveResult.alreadyReserved "Asha") := by
  have h := reserve_occupied_seat [] [] (demoBus.writeSeat 1 0 "Asha") "B1" "Meena" 5
    (by decide) (by decide)
    (by intro b hb
        rw [List.nil_append, List.mem_singleton] at hb
        subst hb
        exact ⟨by decide, by decide⟩)
    (by simp) rfl
    (by rw [show seatFin 5 (by decide) (by decide) = (1, 0) from rfl,
            writeSeat_seats_same]
        simp)
  rw [List.nil_append] at h
  exact h.trans rfl

/-- C3: for an existing vehicle (in a registry with usable identifiers), a
seat number in `[1,32]` whose seat is vacant and a valid passenger name,
reserving the seat and then releasing it with affirmative confirmation
returns the whole registry — in particular that seat, vacant again with
its fare unchanged — to its original state. -/
theorem reserve_release_roundtrip (pre post : List Bus) (b : Bus)
    (number passenger : String) (n : Int) (h1 : 1 ≤ n) (h2 : n ≤ 32)
    (confirm : Char)
    (hvr : ValidRegistry (pre ++ b :: post))
    (hpre : ∀ b' ∈ pre, b'.busNumber ≠ number) (hb : b.busNumber = number)
    (hvac : (b.seats (seatFin n h1 h2).1 (seatFin n h1 h2).2).passengerName = "Empty")
    (hp0 : passenger ≠ "0") (hpe : passenger ≠ "")
    (hconf : confirm.toLower = 'y') :
    (cancelSeat (allotment (pre ++ b :: post) number n passenger).1
        number n confirm).1
      = pre ++ b :: post := by
  have hnum : ¬(number = "0" ∨ number = "") := by
    have hv := hvr b (by simp)
    rw [hb] at hv
    tauto
  have halt : (allotment (pre ++ b :: post) number n passenger).1
      = pre ++ (b.writeSeat (seatFin n h1 h2).1 (seatFin n h1 h2).2 passenger)
          :: post := by
    unfold allotment
    rw [if_neg hnum, reserveScan_append pre b post number n passenger hpre hb,
        reserveInBus_success b n passenger h1 h2 hvac hp0 hpe]
  rw [halt]
  have hb2num : (b.writeSeat (seatFin n h1 h2).1 (seatFin n h1 h2).2
      passenger).busNumber = number := by
    rw [writeSeat_busNumber]
    exact hb
  unfold cancelSeat
  rw [if_neg hnum, releaseScan_append pre _ post number n confirm hpre hb2num]
  by_cases hpE : passenger = "Empty"
  · subst hpE
    rw [writeSeat_self b _ _ _ hvac, releaseInBus_empty b n confirm h1 h2 hvac]
  · have hocc : ((b.writeSeat (seatFin n h1 h2).1 (seatFin n h1 h2).2
        passenger).seats (seatFin n h1 h2).1 (seatFin n h1 h2).2).passengerName
          ≠ "Empty" := by
      rw [writeSeat_seats_same]
      exact hpE
    rw [releaseInBus_confirmed _ n confirm h1 h2 hocc hconf,
        writeSeat_writeSeat, writeSeat_self b _ _ _ hvac]

/-- Witness for C3: reserve seat 5 for `"Asha"`, release it confirming with
`'y'`: the registry is back to its original one-bus state. -/
theorem reserve_release_roundtrip_witness :
    (cancelSeat (allotment [demoBus] "B1" 5 "Asha").1 "B1" 5 'y').1 = [demoBus] :=
  reserve_release_roundtrip [] [] demoBus "B1" "Asha" 5 (by decide) (by decide) 'y'
    (by intro b hb
        rw [List.nil_append, List.mem_singleton] at hb
        subst hb
        exact ⟨by decide, by decide⟩)
    (by simp) rfl rfl (by decide) (by decide) (by decide)

/-- C4: for an existing vehicle (in a registry with usable identifiers) and
every numeric seat number outside `[1,32]` other than the cancellation
token `0`, both reserve and release fail with `invalidSeat` and the
registry is returned exactly as it was. -/
theorem invalid_seat_rejected (pre post : List Bus) (b : Bus)
    (number passenger : String) (confirm : Char) (n : Int)
    (hvr : ValidRegistry (pre ++ b :: post))
    (hpre : ∀ b' ∈ pre, b'.busNumber ≠ number) (hb : b.busNumber = number)
    (hn0 : n ≠ 0) (hout : n < 1 ∨ 32 < n) :
    allotment (pre ++ b :: post) number n passenger
        = (pre ++ b :: post, ReserveResult.invalidSeat)
    ∧ cancelSeat (pre ++ b :: post) number n confirm
        = (pre ++ b :: post, ReleaseResult.invalidSeat) := by
  have hnum : ¬(number = "0" ∨ number = "") := by
    have hv := hvr b (by simp)
    rw [hb] at hv
    tauto
  constructor
  · unfold allotment
    rw [if_neg hnum, reserveScan_append pre b post number n passenger hpre hb,
        reserveInBus_invalid b n passenger hn0 hout]
  · unfold cancelSeat
    rw [if_neg hnum, releaseScan_append pre b post number n confirm hpre hb,
        releaseInBus_invalid b n confirm hn0 hout]

/-- Witness for C4: seat number 33 is rejected by both reserve and release
on the demo registry, which is returned unchanged. -/
theorem invalid_seat_rejected_witness :
    allotment [demoBus] "B1" 33 "Asha" = ([demoBus], ReserveResult.invalidSeat)
    ∧ cancelSeat [demoBus] "B1" 33 'y' = ([demoBus], ReleaseResult.invalidSeat) :=
  invalid_seat_rejected [] [] demoBus "B1" "Asha" 'y' 33
    (by intro b hb
        rw [List.nil_append, List.mem_singleton] at hb
        subst hb
        exact ⟨by decide, by decide⟩)
    (by simp) rfl (by decide) (by decide)

/-- C10: vacancy is the occupant string being the literal `"Empty"`.
Reserving a vacant seat for the passenger name `"Empty"` "succeeds" —
the fare is reported — but leaves the registry (hence the seat) exactly as
it was, so a subsequent reserve of the same seat succeeds and overwrites
it, a release of it fails as already-empty, and the seat still appears
among the positions the vacant-seat counter counts. -/
theorem empty_passenger_name_aliases_vacancy (pre post : List Bus) (b : Bus)
    (number p2 : String) (n : Int) (h1 : 1 ≤ n) (h2 : n ≤ 32) (confirm : Char)
    (hvr : ValidRegistry (pre ++ b :: post))
    (hpre : ∀ b' ∈ pre, b'.busNumber ≠ number) (hb : b.busNumber = number)
    (hvac : (b.seats (seatFin n h1 h2).1 (seatFin n h1 h2).2).passengerName = "Empty")
    (hp20 : p2 ≠ "0") (hp2e : p2 ≠ "") :
    allotment (pre ++ b :: post) number n "Empty"
        = (pre ++ b :: post,
           ReserveResult.success
             (b.seats (seatFin n h1 h2).1 (seatFin n h1 h2).2).fare)
    ∧ (∃ b2 : Bus,
        allotment (pre ++ b :: post) number n p2
            = (pre ++ b2 :: post,
               ReserveResult.success
                 (b.seats (seatFin n h1 h2).1 (seatFin n h1 h2).2).fare)
        ∧ (b2.seats (seatFin n h1 h2).1 (seatFin n h1 h2).2).passengerName = p2)
    ∧ cancelSeat (pre ++ b :: post) number n confirm
        = (pre ++ b :: post, ReleaseResult.alreadyEmpty)
    ∧ seatFin n h1 h2 ∈ allSeatPositions.filter
        fun rc => (b.seats rc.1 rc.2).passengerName == "Empty" := by
  have hnum : ¬(number = "0" ∨ number = "") := by
    have hv := hvr b (by simp)
    rw [hb] at hv
    tauto
  refine ⟨?_, ?_, ?_, ?_⟩
  · unfold allotment
    rw [if_neg hnum, reserveScan_append pre b post number n "Empty" hpre hb,
        reserveInBus_success b n "Empty" h1 h2 hvac (by decide) (by decide),
        writeSeat_self b _ _ _ hvac]
  · refine ⟨b.writeSeat (seatFin n h1 h2).1 (seatFin n h1 h2).2 p2, ?_, ?_⟩
    · unfold allotment
      rw [if_neg hnum, reserveScan_append pre b post number n p2 hpre hb,
          reserveInBus_success b n p2 h1 h2 hvac hp20 hp2e]
    · rw [writeSeat_seats_same]
  · unfold cancelSeat
    rw [if_neg hnum, releaseScan_append pre b post number n confirm hpre hb,
        releaseInBus_empty b n confirm h1 h2 hvac]
  · exact List.mem_filter.mpr ⟨mem_allSeatPositions _, by rw [hvac]; rfl⟩

/-- Witness for C10: on the demo bus, reserving seat 5 for `"Empty"`
reports success with fare 300 yet the registry is unchanged. -/
theorem empty_passenger_name_aliases_vacancy_witness :
    allotment [demoBus] "B1" 5 "Empty" = ([demoBus], ReserveResult.success 300) := by
  have h := empty_passenger_name_aliases_vacancy [] [] demoBus "B1" "Meena" 5
    (by decide) (by decide) 'y'
    (by intro b hb
        rw [List.nil_append, List.mem_singleton] at hb
        subst hb
        exact ⟨by decide, by decide⟩)
    (by simp) rfl rfl (by decide) (by decide)
  exact h.1

end BusBooking
